import Mathlib

/-!
Shallow embedding of `src/routes/+page.svelte` (Pokémon stat comparator, a
Svelte single-page component) and verification of its specification.

The component keeps five pieces of mutable state (`pokemonData`,
`selectedPokemon`, `chartInstance`, `searchTerm`, `loading`), a fixed color
palette `chartColors`, and four operations: `fetchPokemonList`,
`fetchPokemonDetails`, `updateChart`, `togglePokemon`, plus a reactive
filter `filteredPokemon`.  Network fetches are modelled by an environment
`Env` mapping a URL to an optional JSON payload (`none` = the fetch
rejected or the body failed to parse).  Chart.js handles are modelled by
natural-number handles together with the multiset of currently live
(created and not destroyed) handles.
-/

namespace Poke

/-- An element of `pokemonData`: `{ id: index + 1, name, url }` built in
`fetchPokemonList` (lines 34-38 of the source). -/
structure CatalogEntry where
  id : Nat
  name : String
  url : String
deriving DecidableEq

/-- One element of the `data.stats` array of a detail response:
`{ stat: { name }, base_stat }` (lines 53-56). -/
structure ApiStat where
  statName : String
  baseStat : Int
deriving DecidableEq

/-- One element of the mapped stat list `{ name, value }` produced by
`fetchPokemonDetails` (lines 53-56). -/
structure Stat where
  name : String
  value : Int
deriving DecidableEq

/-- The value returned by `fetchPokemonDetails` on success (lines 51-57). -/
structure PokemonDetail where
  name : String
  stats : List Stat
deriving DecidableEq

/-- One element of `data.results` of the catalog response (lines 23-26). -/
structure PokemonAPIResponse where
  name : String
  url : String
deriving DecidableEq

/-- The network: maps a detail URL to `some stats` (the `data.stats` array of
the JSON response) when the fetch succeeds, `none` when it rejects. -/
def Env : Type := String → Option (List ApiStat)

/-- The palette `chartColors` (lines 13-20). -/
def chartColors : List String :=
  ["rgba(255, 99, 132, 0.7)",
   "rgba(54, 162, 235, 0.7)",
   "rgba(255, 206, 86, 0.7)",
   "rgba(75, 192, 192, 0.7)",
   "rgba(153, 102, 255, 0.7)",
   "rgba(255, 159, 64, 0.7)"]

/-- JavaScript `String.prototype.toLowerCase`, on the character list of the
string (ASCII-faithful; the catalog names are ASCII). -/
def toLowerCase (s : String) : String :=
  String.mk (s.data.map Char.toLower)

/-- Predicate `startsWith hay pat` : `pat` is a prefix of `hay`, character by
character.  Helper for JavaScript `String.prototype.includes`. -/
def startsWith : List Char → List Char → Bool
  | _, [] => true
  | [], _ :: _ => false
  | c :: cs, d :: ds => c = d && startsWith cs ds

/-- Substring containment on character lists: some suffix of `hay` starts
with `pat`.  This is JavaScript `hay.includes(pat)`. -/
def strContains : List Char → List Char → Bool
  | [], pat => startsWith [] pat
  | c :: cs, pat => startsWith (c :: cs) pat || strContains cs pat

/-- JavaScript `s.includes(sub)` on strings. -/
def jsIncludes (s sub : String) : Bool :=
  strContains s.data sub.data

/-- The reactive filter (lines 110-112):
`pokemonData.filter(pokemon => pokemon.name.toLowerCase().includes(searchTerm.toLowerCase()))`. -/
def filteredPokemon (pokemonData : List CatalogEntry) (searchTerm : String) :
    List CatalogEntry :=
  pokemonData.filter (fun pokemon =>
    jsIncludes (toLowerCase pokemon.name) (toLowerCase searchTerm))

/-- JavaScript `selectedPokemon.findIndex(p => p.id === pokemon.id)`
(line 116); `-1` is modelled as `none`. -/
def findIndexById (sel : List CatalogEntry) (targetId : Nat) : Option Nat :=
  match sel with
  | [] => none
  | p :: rest =>
      if p.id = targetId then some 0
      else (findIndexById rest targetId).map (fun i => i + 1)

/-- The function `togglePokemon` (lines 115-127), acting on the `selectedPokemon` list.
The returned `Bool` is `true` exactly when the capacity `alert` fired.
Removal is `[...sel.slice(0, index), ...sel.slice(index + 1)]`, i.e.
`take index ++ drop (index + 1)`. -/
def togglePokemon (selectedPokemon : List CatalogEntry) (pokemon : CatalogEntry) :
    List CatalogEntry × Bool :=
  match findIndexById selectedPokemon pokemon.id with
  | some index =>
      (selectedPokemon.take index ++ selectedPokemon.drop (index + 1), false)
  | none =>
      if selectedPokemon.length < 6 then
        (selectedPokemon ++ [pokemon], false)
      else
        (selectedPokemon, true)

/-- The selection after a toggle (the alert discarded). -/
def toggleSel (selectedPokemon : List CatalogEntry) (pokemon : CatalogEntry) :
    List CatalogEntry :=
  (togglePokemon selectedPokemon pokemon).1

/-- Folding a sequence of toggles from the empty initial selection
(`let selectedPokemon = []`, line 7). -/
def runToggles (entries : List CatalogEntry) : List CatalogEntry :=
  entries.foldl toggleSel []

/-- The function `fetchPokemonDetails` (lines 47-62): on success return
`{ name: pokemon.name, stats: data.stats.map(stat => ({ name, value })) }`;
a rejected fetch is caught and `null` (here `none`) is returned. -/
def fetchPokemonDetails (env : Env) (pokemon : CatalogEntry) :
    Option PokemonDetail :=
  match env pokemon.url with
  | some stats =>
      some { name := pokemon.name,
             stats := stats.map (fun stat =>
               { name := stat.statName, value := stat.baseStat }) }
  | none => none

/-- JavaScript `name.charAt(0).toUpperCase() + name.slice(1)` (line 78). -/
def capitalize (s : String) : String :=
  match s.data with
  | [] => ""
  | c :: cs => String.mk (c.toUpper :: cs)

/-- One element of the `datasets` array built in `updateChart`
(lines 77-83). -/
structure Dataset where
  label : String
  data : List Int
  backgroundColor : String
  borderColor : String
  borderWidth : Nat
deriving DecidableEq

/-- The `chartData` object (lines 75-84). -/
structure ChartData where
  labels : List String
  datasets : List Dataset
deriving DecidableEq

/-- The fixed axis labels (line 76). -/
def chartLabels : List String :=
  ["HP", "Ataque", "Defensa", "Ataque Esp.", "Defensa Esp.", "Velocidad"]

/-- The dataset built for the pokemon at position `index` of the selection
(lines 77-83).  `chartColors[index % chartColors.length]`; the border color
is the fill color with `'0.7'` replaced by `'1'` (each palette string
contains `0.7` exactly once, so replace-all coincides with the JavaScript
first-occurrence `replace`). -/
def mkDataset (index : Nat) (pokemon : PokemonDetail) : Dataset :=
  { label := capitalize pokemon.name,
    data := pokemon.stats.map (fun stat => stat.value),
    backgroundColor := chartColors.getD (index % chartColors.length) "",
    borderColor :=
      (chartColors.getD (index % chartColors.length) "").replace "0.7" "1",
    borderWidth := 1 }

/-- The map `pokemonDetails.map((pokemon, index) => ...)` (line 77), with the
JavaScript map index made an explicit accumulator. -/
def buildDatasets : Nat → List PokemonDetail → List Dataset
  | _, [] => []
  | index, pokemon :: rest => mkDataset index pokemon :: buildDatasets (index + 1) rest

/-- The `chartData` value of lines 75-84, given the resolved details. -/
def buildChartData (pokemonDetails : List PokemonDetail) : ChartData :=
  { labels := chartLabels, datasets := buildDatasets 0 pokemonDetails }

/-- Collapse the array delivered by `Promise.all`: `some` of the values if
every entry resolved to a non-`null` detail, `none` if any entry is `null`
(in which case line 78 `pokemon.name` throws a TypeError on `null`). -/
def allSome {α : Type} : List (Option α) → Option (List α)
  | [] => some []
  | none :: _ => none
  | some a :: rest => (allSome rest).map (fun l => a :: l)

/-- The chart dataset a render of `selection` builds under network `env`:
`none` when some detail fetch fails (the render throws before reaching the
chart), `some (buildChartData details)` otherwise. -/
def chartDataOf (env : Env) (selection : List CatalogEntry) : Option ChartData :=
  (allSome (selection.map (fetchPokemonDetails env))).map buildChartData

/-- The component state: the five `let` bindings of lines 6-10, extended
with the resource instrumentation for Chart.js handles.  `chartInstance`
is the handle held by the variable of line 8; `lastChartData` is the data
the live chart was created with; `liveCharts` is the list of handles that
have been created (`new Chart`) and not destroyed (`.destroy()`);
`nextChart` is a fresh-handle counter. -/
structure AppState where
  pokemonData : List CatalogEntry
  selectedPokemon : List CatalogEntry
  chartInstance : Option Nat
  searchTerm : String
  loading : Bool
  lastChartData : Option ChartData
  liveCharts : List Nat
  nextChart : Nat
deriving DecidableEq

/-- The initial state (lines 6-10): empty catalog, empty selection,
`chartInstance = null`, empty search, `loading = false`, no live chart. -/
def initState : AppState :=
  { pokemonData := [], selectedPokemon := [], chartInstance := none,
    searchTerm := "", loading := false, lastChartData := none,
    liveCharts := [], nextChart := 0 }

/-- Observable events of one `updateChart` call: which URLs were fetched,
the value of `loading` during the concurrent fetch phase (`none` when no
fetch phase happened), which handle was destroyed, which was created, and
whether the call threw. -/
structure RenderLog where
  fetched : List String
  loadingAtFetch : Option Bool
  destroyed : Option Nat
  created : Option Nat
  threw : Bool
deriving DecidableEq

/-- The log of a call that did nothing observable. -/
def RenderLog.nothing : RenderLog :=
  { fetched := [], loadingAtFetch := none, destroyed := none,
    created := none, threw := false }

/-- The function `updateChart` (lines 65-107).  Empty selection: return at once
(line 66).  Otherwise set `loading = true`, fetch every selected entry's
details concurrently and await all (lines 71-72).  If any detail is `null`,
building `chartData` throws at `pokemon.name` (line 78) and the function
aborts: the chart is untouched and `loading = false` (line 106) is never
reached.  Otherwise build `chartData`, destroy the previous chart if one
exists (lines 89-91), create the new chart (line 93) and clear `loading`
(line 106). -/
def updateChart (env : Env) (s : AppState) : AppState × RenderLog :=
  if s.selectedPokemon.length = 0 then
    (s, RenderLog.nothing)
  else
    let s1 : AppState := { s with loading := true }
    let pokemonDetails := s1.selectedPokemon.map (fetchPokemonDetails env)
    let fetched := s1.selectedPokemon.map (fun pokemon => pokemon.url)
    match allSome pokemonDetails with
    | none =>
        (s1, { fetched := fetched, loadingAtFetch := some true,
               destroyed := none, created := none, threw := true })
    | some details =>
        let chartData := buildChartData details
        let destroyedHandle := s1.chartInstance
        let s2 : AppState :=
          match s1.chartInstance with
          | some handle => { s1 with liveCharts := s1.liveCharts.erase handle }
          | none => s1
        let newHandle := s2.nextChart
        let s3 : AppState :=
          { s2 with chartInstance := some newHandle,
                    lastChartData := some chartData,
                    liveCharts := s2.liveCharts ++ [newHandle],
                    nextChart := newHandle + 1,
                    loading := false }
        (s3, { fetched := fetched, loadingAtFetch := some true,
               destroyed := destroyedHandle, created := some newHandle,
               threw := false })

/-- The map `data.results.map((pokemon, index) => ({ id: index + 1, name, url }))`
(lines 34-38), with the map index explicit. -/
def mkCatalog : Nat → List PokemonAPIResponse → List CatalogEntry
  | _, [] => []
  | index, pokemon :: rest =>
      { id := index + 1, name := pokemon.name, url := pokemon.url } ::
        mkCatalog (index + 1) rest

/-- The function `fetchPokemonList` (lines 29-44): set `loading = true`, fetch the
catalog (`response` is `none` when the fetch rejects or the body fails to
parse; the error is caught and logged), then `finally` set
`loading = false`.  The returned `Bool` is the value of `loading` while
the request was in flight. -/
def fetchPokemonList (response : Option (List PokemonAPIResponse)) (s : AppState) :
    AppState × Bool :=
  let s1 : AppState := { s with loading := true }
  let s2 : AppState :=
    match response with
    | some results => { s1 with pokemonData := mkCatalog 0 results }
    | none => s1
  ({ s2 with loading := false }, s1.loading)

/-- What the chart container (lines 143-151) displays: the loading
message, the idle placeholder, or the chart canvas. -/
inductive ChartArea where
  | loadingMsg
  | placeholder
  | canvas
deriving DecidableEq

/-- The template's dispatch (lines 144-150): `{#if loading}` the loading
message, `{:else if selectedPokemon.length === 0}` the placeholder,
`{:else}` the canvas. -/
def chartArea (s : AppState) : ChartArea :=
  if s.loading then ChartArea.loadingMsg
  else if s.selectedPokemon.length = 0 then ChartArea.placeholder
  else ChartArea.canvas

/-- One user click (lines 115-127): `togglePokemon` mutates the selection
and then calls `updateChart()` (line 126).  The network environment for
the render is supplied per step. -/
def toggleStep (env : Env) (s : AppState) (pokemon : CatalogEntry) :
    AppState × RenderLog :=
  let sel := toggleSel s.selectedPokemon pokemon
  updateChart env { s with selectedPokemon := sel }

/-- A whole session: a sequence of user clicks from the initial state,
each with its own network environment. -/
def runApp (ops : List (Env × CatalogEntry)) : AppState :=
  ops.foldl (fun s op => (toggleStep op.1 s op.2).1) initState

/-! ### Lemmas about `findIndexById` and `togglePokemon` -/

theorem findIndexById_eq_none {sel : List CatalogEntry} {t : Nat} :
    findIndexById sel t = none ↔ ∀ p ∈ sel, p.id ≠ t := by
  induction sel with
  | nil => simp [findIndexById]
  | cons q qs ih =>
    by_cases hq : q.id = t
    · simp [findIndexById, hq]
    · simp [findIndexById, hq, Option.map_eq_none', ih]

theorem findIndexById_first_match {l r : List CatalogEntry} {e : CatalogEntry}
    {t : Nat} (hl : ∀ q ∈ l, q.id ≠ t) (he : e.id = t) :
    findIndexById (l ++ e :: r) t = some l.length := by
  induction l with
  | nil => simp [findIndexById, he]
  | cons q qs ih =>
    have hq : q.id ≠ t := hl q (by simp)
    have ih' := ih (fun p hp => hl p (by simp [hp]))
    simp [findIndexById, hq, ih']

theorem togglePokemon_found {l r : List CatalogEntry} {e p : CatalogEntry}
    (hl : ∀ q ∈ l, q.id ≠ p.id) (he : e.id = p.id) :
    togglePokemon (l ++ e :: r) p = (l ++ r, false) := by
  unfold togglePokemon
  rw [findIndexById_first_match hl he]
  have h1 : (l ++ e :: r).take l.length = l := List.take_left l (e :: r)
  have h2 : (l ++ e :: r).drop (l.length + 1) = r := by
    have : l ++ e :: r = (l ++ [e]) ++ r := by simp
    rw [this, show l.length + 1 = (l ++ [e]).length by simp]
    exact List.drop_left (l ++ [e]) r
  show (List.take l.length (l ++ e :: r) ++ List.drop (l.length + 1) (l ++ e :: r),
      false) = (l ++ r, false)
  rw [h1, h2]

theorem togglePokemon_absent_lt {sel : List CatalogEntry} {p : CatalogEntry}
    (h : ∀ q ∈ sel, q.id ≠ p.id) (hlen : sel.length < 6) :
    togglePokemon sel p = (sel ++ [p], false) := by
  unfold togglePokemon
  rw [findIndexById_eq_none.mpr h]
  simp [hlen]

theorem togglePokemon_absent_ge {sel : List CatalogEntry} {p : CatalogEntry}
    (h : ∀ q ∈ sel, q.id ≠ p.id) (hlen : ¬ sel.length < 6) :
    togglePokemon sel p = (sel, true) := by
  unfold togglePokemon
  rw [findIndexById_eq_none.mpr h]
  simp [hlen]

/-- Splitting a selection at the first entry whose id matches. -/
theorem exists_first_match {sel : List CatalogEntry} {t : Nat}
    (h : ∃ p ∈ sel, p.id = t) :
    ∃ l p r, sel = l ++ p :: r ∧ p.id = t ∧ ∀ q ∈ l, q.id ≠ t := by
  induction sel with
  | nil => simp at h
  | cons q qs ih =>
    by_cases hq : q.id = t
    · exact ⟨[], q, qs, rfl, hq, by simp⟩
    · obtain ⟨p, hp, hpt⟩ := h
      have hpqs : p ∈ qs := by
        rcases List.mem_cons.mp hp with h1 | h1
        · exact absurd (h1 ▸ hpt) hq
        · exact h1
      obtain ⟨l, p', r, hsel, hpt', hl⟩ := ih ⟨p, hpqs, hpt⟩
      refine ⟨q :: l, p', r, by simp [hsel], hpt', ?_⟩
      intro x hx
      rcases List.mem_cons.mp hx with h1 | h1
      · exact h1 ▸ hq
      · exact hl x h1

/-- Exhaustive case analysis of `togglePokemon`: the first id-match (if
any) is removed order-preservingly; otherwise the entry is appended when
the selection holds fewer than 6, and rejected with the alert when it is
full. -/
theorem toggle_cases (sel : List CatalogEntry) (e : CatalogEntry) :
    (∃ l p r, sel = l ++ p :: r ∧ p.id = e.id ∧ (∀ q ∈ l, q.id ≠ e.id) ∧
        togglePokemon sel e = (l ++ r, false))
    ∨ ((∀ p ∈ sel, p.id ≠ e.id) ∧ sel.length < 6 ∧
        togglePokemon sel e = (sel ++ [e], false))
    ∨ ((∀ p ∈ sel, p.id ≠ e.id) ∧ 6 ≤ sel.length ∧
        togglePokemon sel e = (sel, true)) := by
  by_cases hmem : ∃ p ∈ sel, p.id = e.id
  · obtain ⟨l, p, r, hsel, hpt, hl⟩ := exists_first_match hmem
    exact Or.inl ⟨l, p, r, hsel, hpt, hl, hsel ▸ togglePokemon_found hl hpt⟩
  · have habs : ∀ p ∈ sel, p.id ≠ e.id := by
      intro p hp
      exact fun hc => hmem ⟨p, hp, hc⟩
    by_cases hlen : sel.length < 6
    · exact Or.inr (Or.inl ⟨habs, hlen, togglePokemon_absent_lt habs hlen⟩)
    · exact Or.inr (Or.inr ⟨habs, Nat.le_of_not_lt hlen, togglePokemon_absent_ge habs hlen⟩)

/-- The reachable-selection invariant: at most 6 entries, pairwise
distinct ids. -/
def SelInvariant (sel : List CatalogEntry) : Prop :=
  sel.length ≤ 6 ∧ sel.Pairwise (fun a b => a.id ≠ b.id)

theorem toggleSel_preserves_invariant {sel : List CatalogEntry}
    (e : CatalogEntry) (h : SelInvariant sel) : SelInvariant (toggleSel sel e) := by
  obtain ⟨hlen, hpw⟩ := h
  rcases toggle_cases sel e with
    ⟨l, p, r, hsel, _, _, heq⟩ | ⟨hni, hlt, heq⟩ | ⟨_, _, heq⟩
  · have hsub : (l ++ r).Sublist (l ++ p :: r) :=
      List.Sublist.append_left (List.sublist_cons_self p r) l
    constructor
    · have : (l ++ r).length ≤ (l ++ p :: r).length := hsub.length_le
      unfold toggleSel
      rw [heq]
      exact le_trans this (hsel ▸ hlen)
    · unfold toggleSel
      rw [heq]
      exact (hsel ▸ hpw).sublist hsub
  · constructor
    · unfold toggleSel
      rw [heq]
      have : (sel ++ [e]).length = sel.length + 1 := by simp
      rw [this]
      omega
    · unfold toggleSel
      rw [heq]
      refine List.pairwise_append.mpr ⟨hpw, by simp, ?_⟩
      intro a ha b hb
      simp only [List.mem_singleton] at hb
      exact hb ▸ hni a ha
  · unfold toggleSel
    rw [heq]
    exact ⟨hlen, hpw⟩

theorem foldl_toggleSel_invariant (entries : List CatalogEntry) :
    ∀ sel : List CatalogEntry, SelInvariant sel →
      SelInvariant (entries.foldl toggleSel sel) := by
  induction entries with
  | nil => intro sel h; exact h
  | cons e rest ih =>
    intro sel h
    exact ih (toggleSel sel e) (toggleSel_preserves_invariant e h)

/-! ### C1 -/

/-- C1: every sequence of `togglePokemon` operations starting from the
empty selection keeps the selection at length at most 6 with pairwise
distinct ids. -/
theorem claim1_selection_invariant (entries : List CatalogEntry) :
    (runToggles entries).length ≤ 6 ∧
      (runToggles entries).Pairwise (fun a b => a.id ≠ b.id) :=
  foldl_toggleSel_invariant entries [] ⟨by simp, by simp⟩

/-! ### C2 -/

/-- C2: `togglePokemon` removes the (first) entry carrying the toggled id,
preserving the relative order of the remaining entries; if the id is
absent and the selection has fewer than 6 entries the entry is appended at
the end without an alert; if the id is absent and the selection is full,
the capacity alert fires and the selection is unchanged. -/
theorem claim2_toggle_behavior (sel : List CatalogEntry) (e : CatalogEntry) :
    (∃ l p r, sel = l ++ p :: r ∧ p.id = e.id ∧ (∀ q ∈ l, q.id ≠ e.id) ∧
        togglePokemon sel e = (l ++ r, false))
    ∨ ((∀ p ∈ sel, p.id ≠ e.id) ∧ sel.length < 6 ∧
        togglePokemon sel e = (sel ++ [e], false))
    ∨ ((∀ p ∈ sel, p.id ≠ e.id) ∧ 6 ≤ sel.length ∧
        togglePokemon sel e = (sel, true)) :=
  toggle_cases sel e

/-! ### C6 -/

/-- A concrete catalog entry, as `fetchPokemonList` would build it. -/
def bulbasaur : CatalogEntry :=
  { id := 1, name := "bulbasaur", url := "https://pokeapi.co/api/v2/pokemon/1/" }

/-- A second concrete catalog entry. -/
def charmander : CatalogEntry :=
  { id := 4, name := "charmander", url := "https://pokeapi.co/api/v2/pokemon/4/" }

/-- C2 witness: the toggle case analysis instantiated on the concrete
selection `[bulbasaur, charmander]` toggled with `bulbasaur`. -/
theorem claim2_toggle_behavior_witness :
    (∃ l p r, [bulbasaur, charmander] = l ++ p :: r ∧ p.id = bulbasaur.id ∧
        (∀ q ∈ l, q.id ≠ bulbasaur.id) ∧
        togglePokemon [bulbasaur, charmander] bulbasaur = (l ++ r, false))
    ∨ ((∀ p ∈ [bulbasaur, charmander], p.id ≠ bulbasaur.id) ∧
        ([bulbasaur, charmander] : List CatalogEntry).length < 6 ∧
        togglePokemon [bulbasaur, charmander] bulbasaur =
          ([bulbasaur, charmander] ++ [bulbasaur], false))
    ∨ ((∀ p ∈ [bulbasaur, charmander], p.id ≠ bulbasaur.id) ∧
        6 ≤ ([bulbasaur, charmander] : List CatalogEntry).length ∧
        togglePokemon [bulbasaur, charmander] bulbasaur =
          ([bulbasaur, charmander], true)) :=
  claim2_toggle_behavior [bulbasaur, charmander] bulbasaur

/-- C6 counterexample: toggling `bulbasaur` twice on the selection
`[bulbasaur, charmander]` yields `[charmander, bulbasaur]`, not the prior
order: removal takes the entry out of its position, and the second toggle
appends it at the end. -/
theorem claim6_counterexample :
    toggleSel (toggleSel [bulbasaur, charmander] bulbasaur) bulbasaur ≠
      [bulbasaur, charmander] ∧
    toggleSel (toggleSel [bulbasaur, charmander] bulbasaur) bulbasaur =
      [charmander, bulbasaur] := by
  constructor
  · decide
  · decide

/-- C6 amended: on a reachable selection (pairwise-distinct ids, length at
most 6), toggling the same entry twice returns the selection to its prior
content as a multiset (a permutation).  The prior order is restored when
the toggled entry's id is absent, and when the entry is the last one; an
entry occurring earlier is removed and re-appended at the end. -/
theorem claim6_toggle_twice (sel : List CatalogEntry) (e : CatalogEntry)
    (hpw : sel.Pairwise (fun a b => a.id ≠ b.id)) (hlen : sel.length ≤ 6) :
    (e ∈ sel → List.Perm (toggleSel (toggleSel sel e) e) sel)
    ∧ (∀ l r, sel = l ++ e :: r →
        toggleSel (toggleSel sel e) e = (l ++ r) ++ [e])
    ∧ ((∀ p ∈ sel, p.id ≠ e.id) → toggleSel (toggleSel sel e) e = sel)
    ∧ (∀ l, sel = l ++ [e] → toggleSel (toggleSel sel e) e = sel) := by
  have core : ∀ l r, sel = l ++ e :: r →
      toggleSel (toggleSel sel e) e = (l ++ r) ++ [e] := by
    intro l r hsel
    subst hsel
    have hpw' := List.pairwise_append.mp hpw
    have hl : ∀ q ∈ l, q.id ≠ e.id := by
      intro q hq
      exact hpw'.2.2 q hq e (by simp)
    have hr : ∀ q ∈ r, q.id ≠ e.id := by
      intro q hq
      exact fun hc => (List.pairwise_cons.mp hpw'.2.1).1 q hq (hc ▸ rfl)
    have h1 : toggleSel (l ++ e :: r) e = l ++ r := by
      unfold toggleSel
      rw [togglePokemon_found hl rfl]
    rw [h1]
    have habs : ∀ q ∈ l ++ r, q.id ≠ e.id := by
      intro q hq
      rcases List.mem_append.mp hq with h | h
      · exact hl q h
      · exact hr q h
    have hlen' : (l ++ r).length < 6 := by
      have : (l ++ e :: r).length = l.length + r.length + 1 := by
        simp [Nat.add_comm, Nat.add_left_comm]
        omega
      simp only [List.length_append] at *
      omega
    unfold toggleSel
    rw [togglePokemon_absent_lt habs hlen']
  refine ⟨?_, core, ?_, ?_⟩
  · intro hmem
    obtain ⟨l, r, hsel⟩ := List.append_of_mem hmem
    rw [core l r hsel, hsel]
    exact List.Perm.trans (List.perm_append_singleton e (l ++ r)) List.perm_middle.symm
  · intro habs
    by_cases hlt : sel.length < 6
    · have h1 : toggleSel sel e = sel ++ [e] := by
        unfold toggleSel
        rw [togglePokemon_absent_lt habs hlt]
      have h2 : togglePokemon (sel ++ [e]) e = (sel, false) := by
        have h3 := togglePokemon_found (l := sel) (r := []) (e := e) (p := e) habs rfl
        simpa using h3
      rw [h1]
      unfold toggleSel
      rw [h2]
    · have h1 : toggleSel sel e = sel := by
        unfold toggleSel
        rw [togglePokemon_absent_ge habs hlt]
      rw [h1]
      unfold toggleSel
      rw [togglePokemon_absent_ge habs hlt]
  · intro l hsel
    rw [core l [] hsel, hsel]
    simp

/-- C6 amended witness: toggling `charmander` (the last entry) twice on
`[bulbasaur, charmander]` restores the selection, and the double toggle of
`bulbasaur` is a permutation of the original selection. -/
theorem claim6_toggle_twice_witness :
    ([bulbasaur, charmander].Pairwise (fun a b => a.id ≠ b.id)) ∧
    toggleSel (toggleSel [bulbasaur, charmander] charmander) charmander =
      [bulbasaur, charmander] ∧
    List.Perm (toggleSel (toggleSel [bulbasaur, charmander] bulbasaur) bulbasaur)
      [bulbasaur, charmander] := by
  refine ⟨by decide, ?_, ?_⟩
  · exact (claim6_toggle_twice [bulbasaur, charmander] charmander (by decide)
      (by decide)).2.2.2 [bulbasaur] rfl
  · exact (claim6_toggle_twice [bulbasaur, charmander] bulbasaur (by decide)
      (by decide)).1 (by decide)

/-! ### C5 -/

theorem startsWith_iff (pat hay : List Char) :
    startsWith hay pat = true ↔ ∃ rest, hay = pat ++ rest := by
  induction pat generalizing hay with
  | nil => simp [startsWith]
  | cons d ds ih =>
    cases hay with
    | nil => simp [startsWith]
    | cons c cs =>
      simp only [startsWith, Bool.and_eq_true, decide_eq_true_eq, ih,
        List.cons_append]
      constructor
      · rintro ⟨hcd, rest, hrest⟩
        exact ⟨rest, by rw [hcd, hrest]⟩
      · rintro ⟨rest, hrest⟩
        obtain ⟨h1, h2⟩ := List.cons.injEq .. ▸ hrest
        exact ⟨h1, rest, h2⟩

theorem strContains_nil_pat (hay : List Char) : strContains hay [] = true := by
  cases hay <;> simp [strContains, startsWith]

theorem strContains_iff (hay pat : List Char) :
    strContains hay pat = true ↔ ∃ l r, hay = l ++ pat ++ r := by
  induction hay with
  | nil =>
    show startsWith [] pat = true ↔ _
    rw [startsWith_iff]
    constructor
    · rintro ⟨rest, hrest⟩
      exact ⟨[], rest, by simpa using hrest⟩
    · rintro ⟨l, r, h⟩
      have h0 := List.append_eq_nil.mp h.symm
      have h1 := List.append_eq_nil.mp h0.1
      exact ⟨r, by simp [h1.2, h0.2]⟩
  | cons c cs ih =>
    show (startsWith (c :: cs) pat || strContains cs pat) = true ↔ _
    rw [Bool.or_eq_true, startsWith_iff, ih]
    constructor
    · rintro (⟨rest, hrest⟩ | ⟨l, r, h⟩)
      · exact ⟨[], rest, by simpa using hrest⟩
      · exact ⟨c :: l, r, by simp [h]⟩
    · rintro ⟨l, r, h⟩
      cases l with
      | nil => exact Or.inl ⟨r, by simpa using h⟩
      | cons x xs =>
        simp only [List.cons_append, List.cons.injEq] at h
        exact Or.inr ⟨xs, r, h.2⟩

/-- C5: the search filter returns exactly the catalog entries whose
lowercased name contains the lowercased term as a contiguous substring; it
is order preserving (a sublist of the catalog); the empty term returns the
whole catalog; and the term `"BULB"` matches an entry named
`"bulbasaur"`. -/
theorem claim5_filter (catalog : List CatalogEntry) (term : String) :
    (∀ e, e ∈ filteredPokemon catalog term ↔
        e ∈ catalog ∧
          ∃ l r, (toLowerCase e.name).data = l ++ (toLowerCase term).data ++ r)
    ∧ List.Sublist (filteredPokemon catalog term) catalog
    ∧ filteredPokemon catalog "" = catalog
    ∧ (∀ e ∈ catalog, e.name = "bulbasaur" →
        e ∈ filteredPokemon catalog "BULB") := by
  refine ⟨?_, ?_, ?_, ?_⟩
  · intro e
    rw [filteredPokemon, List.mem_filter]
    exact and_congr_right (fun _ => strContains_iff _ _)
  · exact List.filter_sublist catalog
  · apply List.filter_eq_self.mpr
    intro e _
    exact strContains_nil_pat (toLowerCase e.name).data
  · intro e he hname
    rw [filteredPokemon, List.mem_filter]
    refine ⟨he, ?_⟩
    rw [jsIncludes, hname]
    decide

/-- C5 witness: on the concrete catalog `[bulbasaur, charmander]` the term
`"BULB"` matches the entry named `"bulbasaur"`, and the empty term returns
the catalog unchanged. -/
theorem claim5_filter_witness :
    bulbasaur ∈ filteredPokemon [bulbasaur, charmander] "BULB" ∧
    filteredPokemon [bulbasaur, charmander] "" = [bulbasaur, charmander] := by
  constructor
  · exact (claim5_filter [bulbasaur, charmander] "BULB").2.2.2 bulbasaur
      (by decide) rfl
  · exact (claim5_filter [bulbasaur, charmander] "").2.2.1

/-! ### Lemmas about `allSome`, `getD` and the three branches of
`updateChart` -/

theorem allSome_eq_none_of_mem {α : Type} {xs : List (Option α)}
    (h : none ∈ xs) : allSome xs = none := by
  induction xs with
  | nil => simp at h
  | cons x rest ih =>
    cases x with
    | none => rfl
    | some a =>
      rcases List.mem_cons.mp h with h1 | h1
      · exact absurd h1 (by simp)
      · show (allSome rest).map _ = none
        rw [ih h1]
        rfl

theorem allSome_eq_some_of_forall {α : Type} {xs : List (Option α)}
    (h : ∀ x ∈ xs, x.isSome) : ∃ ys, allSome xs = some ys := by
  induction xs with
  | nil => exact ⟨[], rfl⟩
  | cons x rest ih =>
    obtain ⟨a, ha⟩ := Option.isSome_iff_exists.mp (h x (by simp))
    obtain ⟨ys, hys⟩ := ih (fun y hy => h y (by simp [hy]))
    subst ha
    exact ⟨a :: ys, by show (allSome rest).map _ = _; rw [hys]; rfl⟩

theorem allSome_pointwise {α : Type} {xs : List (Option α)} {ys : List α}
    (h : allSome xs = some ys) :
    ys.length = xs.length ∧
      ∀ i d, i < xs.length → xs.getD i none = some (ys.getD i d) := by
  induction xs generalizing ys with
  | nil =>
    obtain rfl : ys = [] := by simpa [allSome] using h.symm
    exact ⟨rfl, fun i d hi => by simp at hi⟩
  | cons x rest ih =>
    cases x with
    | none => simp [allSome] at h
    | some a =>
      obtain ⟨ys', hys', rfl⟩ : ∃ ys', allSome rest = some ys' ∧ ys = a :: ys' := by
        have h' : (allSome rest).map (fun l => a :: l) = some ys := h
        obtain ⟨ys', h1, h2⟩ := Option.map_eq_some'.mp h'
        exact ⟨ys', h1, h2.symm⟩
      obtain ⟨hlen, hpt⟩ := ih hys'
      refine ⟨by simpa using hlen, ?_⟩
      intro i d hi
      cases i with
      | zero => rfl
      | succ n =>
        simp only [List.getD_cons_succ]
        exact hpt n d (by simpa using hi)

theorem getD_map_lt {α β : Type} (f : α → β) (l : List α) (i : Nat)
    (h : i < l.length) (dB : β) (dA : α) :
    (l.map f).getD i dB = f (l.getD i dA) := by
  induction l generalizing i with
  | nil => simp at h
  | cons x xs ih =>
    cases i with
    | zero => rfl
    | succ n =>
      simp only [List.map_cons, List.getD_cons_succ]
      exact ih n (by simpa using h)

theorem getD_eq_getD_of_lt {α : Type} (l : List α) (i : Nat)
    (h : i < l.length) (d d' : α) : l.getD i d = l.getD i d' := by
  induction l generalizing i with
  | nil => simp at h
  | cons x xs ih =>
    cases i with
    | zero => rfl
    | succ n =>
      simp only [List.getD_cons_succ]
      exact ih n (by simpa using h)

theorem getD_mem_of_lt {α : Type} (l : List α) (i : Nat) (h : i < l.length)
    (d : α) : l.getD i d ∈ l := by
  induction l generalizing i with
  | nil => simp at h
  | cons x xs ih =>
    cases i with
    | zero => simp
    | succ n =>
      simp only [List.getD_cons_succ]
      exact List.mem_cons_of_mem x (ih n (by simpa using h))

theorem updateChart_empty (env : Env) (s : AppState)
    (h : s.selectedPokemon = []) :
    updateChart env s = (s, RenderLog.nothing) := by
  unfold updateChart
  rw [if_pos (by simp [h])]

theorem updateChart_failure (env : Env) (s : AppState)
    (hne : ¬ s.selectedPokemon.length = 0)
    (hall : allSome (s.selectedPokemon.map (fetchPokemonDetails env)) = none) :
    updateChart env s =
      ({ s with loading := true },
       { fetched := s.selectedPokemon.map (fun pokemon => pokemon.url),
         loadingAtFetch := some true,
         destroyed := none, created := none, threw := true }) := by
  unfold updateChart
  rw [if_neg hne]
  simp only [hall]

theorem updateChart_success (env : Env) (s : AppState)
    (details : List PokemonDetail)
    (hne : ¬ s.selectedPokemon.length = 0)
    (hall : allSome (s.selectedPokemon.map (fetchPokemonDetails env)) =
      some details) :
    updateChart env s =
      ({ s with chartInstance := some s.nextChart,
                lastChartData := some (buildChartData details),
                liveCharts := (match s.chartInstance with
                  | some handle => s.liveCharts.erase handle
                  | none => s.liveCharts) ++ [s.nextChart],
                nextChart := s.nextChart + 1,
                loading := false },
       { fetched := s.selectedPokemon.map (fun pokemon => pokemon.url),
         loadingAtFetch := some true,
         destroyed := s.chartInstance,
         created := some s.nextChart,
         threw := false }) := by
  unfold updateChart
  rw [if_neg hne]
  simp only [hall]
  cases hci : s.chartInstance <;> simp [hci]

/-! ### C3 -/

/-- C3: if the selection is non-empty and the detail fetch of at least one
selected entry fails, the whole render fails (the TypeError at line 78
aborts `updateChart`): no chart is created or destroyed, and the chart
state from before the call — handle, live instances, and displayed data —
remains in place. -/
theorem claim3_all_or_nothing (env : Env) (s : AppState)
    (hne : s.selectedPokemon ≠ [])
    (hfail : ∃ p ∈ s.selectedPokemon, env p.url = none) :
    (updateChart env s).2.threw = true ∧
    (updateChart env s).2.created = none ∧
    (updateChart env s).2.destroyed = none ∧
    (updateChart env s).1.chartInstance = s.chartInstance ∧
    (updateChart env s).1.lastChartData = s.lastChartData ∧
    (updateChart env s).1.liveCharts = s.liveCharts := by
  obtain ⟨p, hp, hpu⟩ := hfail
  have hnone : none ∈ s.selectedPokemon.map (fetchPokemonDetails env) :=
    List.mem_map.mpr ⟨p, hp, by simp [fetchPokemonDetails, hpu]⟩
  have hall := allSome_eq_none_of_mem hnone
  have hlen : ¬ s.selectedPokemon.length = 0 := by
    simpa [List.length_eq_zero] using hne
  rw [updateChart_failure env s hlen hall]
  exact ⟨rfl, rfl, rfl, rfl, rfl, rfl⟩

/-- A network in which every detail fetch fails. -/
def envAllFail : Env := fun _ => none

/-- A state holding one selected entry and a live chart numbered 7. -/
def stateWithChart : AppState :=
  { initState with selectedPokemon := [bulbasaur, charmander],
                   chartInstance := some 7, liveCharts := [7],
                   nextChart := 8 }

/-- C3 witness: with two selected entries and a network that rejects the
detail fetches, the render throws and leaves the previous chart (handle 7)
untouched. -/
theorem claim3_all_or_nothing_witness :
    stateWithChart.selectedPokemon ≠ [] ∧
    (updateChart envAllFail stateWithChart).2.threw = true ∧
    (updateChart envAllFail stateWithChart).1.chartInstance = some 7 := by
  refine ⟨by decide, ?_, ?_⟩
  · exact (claim3_all_or_nothing envAllFail stateWithChart (by decide)
      ⟨bulbasaur, by decide, rfl⟩).1
  · exact (claim3_all_or_nothing envAllFail stateWithChart (by decide)
      ⟨bulbasaur, by decide, rfl⟩).2.2.2.1

/-! ### C4 -/

theorem buildDatasets_length (k : Nat) (ds : List PokemonDetail) :
    (buildDatasets k ds).length = ds.length := by
  induction ds generalizing k with
  | nil => rfl
  | cons p rest ih => simp [buildDatasets, ih]

theorem buildDatasets_getD (k : Nat) (ds : List PokemonDetail) (i : Nat)
    (h : i < ds.length) (dD : Dataset) (dP : PokemonDetail) :
    (buildDatasets k ds).getD i dD = mkDataset (k + i) (ds.getD i dP) := by
  induction ds generalizing k i with
  | nil => simp at h
  | cons p rest ih =>
    cases i with
    | zero => rfl
    | succ n =>
      show (buildDatasets (k + 1) rest).getD n dD = _
      rw [ih (k + 1) n (by simpa using h)]
      simp only [List.getD_cons_succ]
      congr 1
      omega

/-- A throwaway default entry for in-range `getD` indexing. -/
def defaultEntry : CatalogEntry := { id := 0, name := "", url := "" }

/-- A throwaway default dataset for in-range `getD` indexing. -/
def defaultDataset : Dataset :=
  { label := "", data := [], backgroundColor := "", borderColor := "",
    borderWidth := 0 }

/-- A throwaway default detail for in-range `getD` indexing. -/
def defaultDetail : PokemonDetail := { name := "", stats := [] }

/-- C4: when every selected entry's detail response holds 6 stats, the
render builds a dataset with the 6 fixed axis labels in canonical order,
exactly one series per selected entry in selection order — the series at
position `i` labelled with the capitalized name of the `i`-th selected
entry, carrying that entry's 6 stat values in response (= axis) order, and
filled with `chartColors[i % chartColors.length]` — and a successful
render installs exactly this dataset as the live chart's data. -/
theorem claim4_chart_dataset (env : Env) (sel : List CatalogEntry)
    (hok : ∀ p ∈ sel, ∃ stats, env p.url = some stats ∧ stats.length = 6) :
    ∃ cd, chartDataOf env sel = some cd
      ∧ cd.labels = ["HP", "Ataque", "Defensa", "Ataque Esp.",
          "Defensa Esp.", "Velocidad"]
      ∧ cd.labels.length = 6
      ∧ cd.datasets.length = sel.length
      ∧ (∀ s : AppState, s.selectedPokemon = sel → sel ≠ [] →
          (updateChart env s).1.lastChartData = some cd)
      ∧ ∀ i, i < sel.length →
          ∃ stats, env (sel.getD i defaultEntry).url = some stats
            ∧ stats.length = 6
            ∧ (cd.datasets.getD i defaultDataset).label =
                capitalize (sel.getD i defaultEntry).name
            ∧ (cd.datasets.getD i defaultDataset).data =
                stats.map (fun stat => stat.baseStat)
            ∧ (cd.datasets.getD i defaultDataset).data.length = 6
            ∧ (cd.datasets.getD i defaultDataset).backgroundColor =
                chartColors.getD (i % chartColors.length) "" := by
  have hsome : ∀ x ∈ sel.map (fetchPokemonDetails env), x.isSome := by
    intro x hx
    obtain ⟨p, hp, rfl⟩ := List.mem_map.mp hx
    obtain ⟨stats, hstats, _⟩ := hok p hp
    simp [fetchPokemonDetails, hstats]
  obtain ⟨ys, hys⟩ := allSome_eq_some_of_forall hsome
  obtain ⟨hyslen, hpt⟩ := allSome_pointwise hys
  have hyslen' : ys.length = sel.length := by simpa using hyslen
  refine ⟨buildChartData ys, ?_, rfl, rfl, ?_, ?_, ?_⟩
  · rw [chartDataOf, hys]
    rfl
  · show (buildDatasets 0 ys).length = sel.length
    rw [buildDatasets_length]
    exact hyslen'
  · intro s hsel hne
    have hlen0 : ¬ s.selectedPokemon.length = 0 := by
      simpa [hsel, List.length_eq_zero] using hne
    rw [updateChart_success env s ys hlen0 (by rw [hsel]; exact hys)]
  · intro i hi
    have hie : sel.getD i defaultEntry ∈ sel := getD_mem_of_lt sel i hi defaultEntry
    obtain ⟨stats, hstats, hstats6⟩ := hok _ hie
    have hxi : (sel.map (fetchPokemonDetails env)).getD i none =
        fetchPokemonDetails env (sel.getD i defaultEntry) := by
      rw [getD_eq_getD_of_lt _ i (by simpa using hi) none
        (fetchPokemonDetails env defaultEntry)]
      exact getD_map_lt (fetchPokemonDetails env) sel i hi
        (fetchPokemonDetails env defaultEntry) defaultEntry
    have hyd : some (ys.getD i defaultDetail) =
        fetchPokemonDetails env (sel.getD i defaultEntry) := by
      rw [← hxi]
      exact (hpt i defaultDetail (by simpa using hi)).symm
    have hyd' : ys.getD i defaultDetail =
        { name := (sel.getD i defaultEntry).name,
          stats := stats.map (fun stat =>
            { name := stat.statName, value := stat.baseStat }) } := by
      have : fetchPokemonDetails env (sel.getD i defaultEntry) =
          some { name := (sel.getD i defaultEntry).name,
                 stats := stats.map (fun stat =>
                   { name := stat.statName, value := stat.baseStat }) } := by
        unfold fetchPokemonDetails
        rw [hstats]
      rw [this] at hyd
      exact Option.some_injective _ hyd
    have hds : (buildDatasets 0 ys).getD i defaultDataset =
        mkDataset i (ys.getD i defaultDetail) := by
      rw [buildDatasets_getD 0 ys i (hyslen' ▸ hi) defaultDataset defaultDetail]
      simp
    have hdsets : (buildChartData ys).datasets = buildDatasets 0 ys := rfl
    refine ⟨stats, hstats, hstats6, ?_, ?_, ?_, ?_⟩
    · rw [hdsets, hds, hyd']
      rfl
    · rw [hdsets, hds, hyd']
      simp [mkDataset, List.map_map]
    · rw [hdsets, hds, hyd']
      simp [mkDataset, hstats6]
    · rw [hdsets, hds]
      rfl

/-- The six base stats of the detail endpoint, in response order. -/
def sixStatsW : List ApiStat :=
  [{ statName := "hp", baseStat := 45 },
   { statName := "attack", baseStat := 49 },
   { statName := "defense", baseStat := 49 },
   { statName := "special-attack", baseStat := 65 },
   { statName := "special-defense", baseStat := 65 },
   { statName := "speed", baseStat := 45 }]

/-- A network answering every detail fetch with the six stats above. -/
def envSixStats : Env := fun _ => some sixStatsW

/-- C4 witness: with two selected entries whose detail responses hold 6
stats each, the produced dataset has the 6 axes and exactly 2 series. -/
theorem claim4_chart_dataset_witness :
    ∃ cd, chartDataOf envSixStats [bulbasaur, charmander] = some cd ∧
      cd.labels.length = 6 ∧ cd.datasets.length = 2 := by
  obtain ⟨cd, h1, _, h3, h4, _, _⟩ :=
    claim4_chart_dataset envSixStats [bulbasaur, charmander]
      (fun p _ => ⟨sixStatsW, rfl, rfl⟩)
  exact ⟨cd, h1, h3, h4⟩

/-! ### C9 and C10 -/

/-- C9: rendering an empty selection issues no detail fetch, never invokes
the chart-creation path, and (when nothing is loading) the chart area
shows the idle placeholder. -/
theorem claim9_empty_selection_render (env : Env) (s : AppState)
    (hsel : s.selectedPokemon = []) (hload : s.loading = false) :
    (updateChart env s).2.fetched = [] ∧
    (updateChart env s).2.created = none ∧
    (updateChart env s).2 = RenderLog.nothing ∧
    chartArea (updateChart env s).1 = ChartArea.placeholder := by
  have he := updateChart_empty env s hsel
  refine ⟨by rw [he]; rfl, by rw [he]; rfl, by rw [he], ?_⟩
  rw [he]
  simp [chartArea, hsel, hload]

/-- C9 witness: in the initial state (empty selection, not loading) a
render does nothing and the placeholder is shown. -/
theorem claim9_empty_selection_render_witness :
    (updateChart envAllFail initState).2 = RenderLog.nothing ∧
    chartArea (updateChart envAllFail initState).1 = ChartArea.placeholder :=
  ⟨(claim9_empty_selection_render envAllFail initState rfl rfl).2.2.1,
   (claim9_empty_selection_render envAllFail initState rfl rfl).2.2.2⟩

/-- C10: `updateChart` on an empty selection returns immediately with the
state unchanged: in particular the previously created chart instance is
not destroyed and the loading flag is not modified. -/
theorem claim10_empty_selection_noop (env : Env) (s : AppState)
    (hsel : s.selectedPokemon = []) :
    updateChart env s = (s, RenderLog.nothing) ∧
    (updateChart env s).1.chartInstance = s.chartInstance ∧
    (updateChart env s).1.loading = s.loading := by
  have he := updateChart_empty env s hsel
  exact ⟨he, by rw [he], by rw [he]⟩

/-- A state with no selection but a live chart numbered 3, as after the
last selected entry was removed. -/
def stateEmptySelWithChart : AppState :=
  { initState with chartInstance := some 3, liveCharts := [3], nextChart := 4 }

/-- C10 witness: after the last entry is removed the render leaves the
chart (handle 3) alone and the state untouched. -/
theorem claim10_empty_selection_noop_witness :
    updateChart envAllFail stateEmptySelWithChart =
      (stateEmptySelWithChart, RenderLog.nothing) ∧
    (updateChart envAllFail stateEmptySelWithChart).1.chartInstance = some 3 :=
  ⟨(claim10_empty_selection_noop envAllFail stateEmptySelWithChart rfl).1,
   (claim10_empty_selection_noop envAllFail stateEmptySelWithChart rfl).2.1⟩

/-! ### C8 -/

/-- C8 counterexample: a render whose single detail fetch fails completes
(the thrown TypeError ends the call) with the loading flag still `true` —
it is not restored to `false` on the failure path, because line 106 sits
after the throw site and `updateChart` has no `finally`. -/
theorem claim8_counterexample :
    stateWithChart.loading = false ∧
    (updateChart envAllFail stateWithChart).2.threw = true ∧
    (updateChart envAllFail stateWithChart).1.loading = true := by
  refine ⟨rfl, ?_, ?_⟩ <;> decide

/-- C8 amended: the catalog load sets the loading flag for the request and
always restores it to `false` (its `finally`), whether the fetch succeeds
or fails.  A render of a non-empty selection sets the flag to `true` for
the concurrent fetch phase and restores it to `false` when every detail
fetch succeeds; when some detail fetch fails, the render aborts and the
flag remains `true`. -/
theorem claim8_loading_flag (response : Option (List PokemonAPIResponse))
    (sc : AppState) (env : Env) (s : AppState) :
    ((fetchPokemonList response sc).2 = true ∧
      (fetchPokemonList response sc).1.loading = false)
    ∧ (s.selectedPokemon ≠ [] →
        (updateChart env s).2.loadingAtFetch = some true)
    ∧ (s.selectedPokemon ≠ [] →
        (∀ p ∈ s.selectedPokemon, (env p.url).isSome) →
        (updateChart env s).1.loading = false)
    ∧ (s.selectedPokemon ≠ [] →
        (∃ p ∈ s.selectedPokemon, env p.url = none) →
        (updateChart env s).1.loading = true) := by
  refine ⟨⟨rfl, rfl⟩, ?_, ?_, ?_⟩
  · intro hne
    have hlen : ¬ s.selectedPokemon.length = 0 := by
      simpa [List.length_eq_zero] using hne
    cases hall : allSome (s.selectedPokemon.map (fetchPokemonDetails env)) with
    | none => rw [updateChart_failure env s hlen hall]
    | some details => rw [updateChart_success env s details hlen hall]
  · intro hne hok
    have hlen : ¬ s.selectedPokemon.length = 0 := by
      simpa [List.length_eq_zero] using hne
    have hsome : ∀ x ∈ s.selectedPokemon.map (fetchPokemonDetails env),
        x.isSome := by
      intro x hx
      obtain ⟨p, hp, rfl⟩ := List.mem_map.mp hx
      obtain ⟨stats, hstats⟩ := Option.isSome_iff_exists.mp (hok p hp)
      simp [fetchPokemonDetails, hstats]
    obtain ⟨details, hall⟩ := allSome_eq_some_of_forall hsome
    rw [updateChart_success env s details hlen hall]
  · intro hne hfail
    obtain ⟨p, hp, hpu⟩ := hfail
    have hnone : none ∈ s.selectedPokemon.map (fetchPokemonDetails env) :=
      List.mem_map.mpr ⟨p, hp, by simp [fetchPokemonDetails, hpu]⟩
    have hlen : ¬ s.selectedPokemon.length = 0 := by
      simpa [List.length_eq_zero] using hne
    rw [updateChart_failure env s hlen (allSome_eq_none_of_mem hnone)]

/-- C8 amended witness: a failed catalog load still clears the flag, a
fully successful render clears it, and a failing render leaves it set. -/
theorem claim8_loading_flag_witness :
    (fetchPokemonList none initState).1.loading = false ∧
    (updateChart envSixStats stateWithChart).1.loading = false ∧
    (updateChart envAllFail stateWithChart).1.loading = true := by
  refine ⟨?_, ?_, ?_⟩
  · exact (claim8_loading_flag none initState envSixStats initState).1.2
  · exact (claim8_loading_flag none initState envSixStats
      stateWithChart).2.2.1 (by decide) (fun p _ => rfl)
  · exact (claim8_loading_flag none initState envAllFail
      stateWithChart).2.2.2 (by decide) ⟨bulbasaur, by decide, rfl⟩

/-! ### C7 -/

/-- The chart-resource invariant: the live handles are exactly the handle
held by `chartInstance` (so at most one chart is ever live). -/
def ChartInv (s : AppState) : Prop :=
  s.liveCharts = s.chartInstance.toList

theorem updateChart_preserves_chartInv (env : Env) (s : AppState)
    (h : ChartInv s) : ChartInv (updateChart env s).1 := by
  by_cases hsel : s.selectedPokemon.length = 0
  · rw [updateChart_empty env s (List.length_eq_zero.mp hsel)]
    exact h
  · cases hall : allSome (s.selectedPokemon.map (fetchPokemonDetails env)) with
    | none =>
      rw [updateChart_failure env s hsel hall]
      exact h
    | some details =>
      rw [updateChart_success env s details hsel hall]
      show (match s.chartInstance with
        | some handle => s.liveCharts.erase handle
        | none => s.liveCharts) ++ [s.nextChart] = (some s.nextChart).toList
      unfold ChartInv at h
      cases hci : s.chartInstance with
      | none => simp [h, hci]
      | some handle => simp [h, hci]

theorem toggleStep_preserves_chartInv (env : Env) (s : AppState)
    (e : CatalogEntry) (h : ChartInv s) : ChartInv (toggleStep env s e).1 := by
  unfold toggleStep
  exact updateChart_preserves_chartInv env _ h

theorem runApp_chartInv (ops : List (Env × CatalogEntry)) :
    ChartInv (runApp ops) := by
  have main : ∀ start : AppState, ChartInv start →
      ChartInv (ops.foldl (fun s op => (toggleStep op.1 s op.2).1) start) := by
    induction ops with
    | nil => intro start h; exact h
    | cons op rest ih =>
      intro start h
      exact ih _ (toggleStep_preserves_chartInv op.1 start op.2 h)
  exact main initState rfl

/-- In every state, a chart creation during `updateChart` destroys exactly
the previously held chart instance first (or nothing when none existed). -/
theorem updateChart_destroys_old (env : Env) (s : AppState)
    (hcreated : (updateChart env s).2.created.isSome) :
    (updateChart env s).2.destroyed = s.chartInstance := by
  by_cases hsel : s.selectedPokemon.length = 0
  · rw [updateChart_empty env s (List.length_eq_zero.mp hsel)] at hcreated
    simp [RenderLog.nothing] at hcreated
  · cases hall : allSome (s.selectedPokemon.map (fetchPokemonDetails env)) with
    | none =>
      rw [updateChart_failure env s hsel hall] at hcreated
      simp at hcreated
    | some details =>
      rw [updateChart_success env s details hsel hall]

/-- C7: along every session, at most one chart handle is live, the live
handle is the one held by `chartInstance`, and whenever a step creates a
new chart it first destroys exactly the chart instance existing before
the step (if any). -/
theorem claim7_single_live_chart (ops : List (Env × CatalogEntry))
    (env : Env) (e : CatalogEntry) :
    (runApp ops).liveCharts.length ≤ 1
    ∧ (runApp ops).liveCharts = (runApp ops).chartInstance.toList
    ∧ ((toggleStep env (runApp ops) e).2.created.isSome →
        (toggleStep env (runApp ops) e).2.destroyed =
          (runApp ops).chartInstance) := by
  have hinv := runApp_chartInv ops
  refine ⟨?_, hinv, ?_⟩
  · rw [hinv]
    cases (runApp ops).chartInstance <;> simp
  · intro hcreated
    unfold toggleStep at hcreated ⊢
    exact updateChart_destroys_old env _ hcreated

/-- C7 witness: from the initial state, one click on `bulbasaur` with a
successful network creates chart 0 after destroying nothing, matching the
instance held before the step (`none`). -/
theorem claim7_single_live_chart_witness :
    (toggleStep envSixStats (runApp []) bulbasaur).2.destroyed =
      (runApp []).chartInstance ∧
    (runApp []).liveCharts.length ≤ 1 := by
  constructor
  · exact (claim7_single_live_chart [] envSixStats bulbasaur).2.2 (by decide)
  · exact (claim7_single_live_chart [] envSixStats bulbasaur).1

end Poke
